import Mathlib

/-!
Shallow embedding of `analyze_comparison_results.py`: a one-shot pandas /
matplotlib script that loads a CSV of cloud-scheduling experiment results,
cleans it, filters it to the algorithm "SLA-PSO", aggregates the standard
deviation of host CPU utilization along three scaling axes, and renders
plots.

The embedding models

* the tabular data (`Cell`, `Table`) and the cleaning pipeline:
  column-name stripping, `pd.to_numeric(errors='coerce')` on the fixed list
  of 13 numeric columns, `dropna(subset=...)` (which raises `KeyError` when
  a subset column is absent), the whitespace-insensitive algorithm filter,
  and the landscape-code labelling;
* the aggregation `groupby('NumVMs').agg(mean)` used by the scaling
  analyses (pandas sorts group keys ascending and emits one row per
  distinct key);
* the script's control flow as an event trace (`Event`, `run`): directory
  creation, load, early exits via `exit()` (which, called with no
  argument, terminates the interpreter with status 0), the unhandled
  `KeyError` path (status 1), per-analysis "no data" skips, and plot
  rendering, where a failing plot call propagates and aborts the run
  (status 1).  Environmental failure of a plot save is modelled by a
  Boolean oracle on the plot path.
-/

set_option autoImplicit false

deriving instance DecidableEq for Except

namespace SlaPso

/-- Value held by one table cell: a text value, a numeric value
(rationals model the floats the script manipulates), or a missing value
(pandas `NaN`). -/
inductive Cell where
  | str (s : String)
  | num (q : ℚ)
  | na
deriving DecidableEq, Repr

/-- In-memory dataframe: a header of column names plus the data rows. -/
structure Table where
  cols : List String
  rows : List (List Cell)
deriving DecidableEq, Repr

/-- A table is rectangular when every row has exactly one cell per column;
tables produced by `pandas.read_csv` always are. -/
def Table.Rect (t : Table) : Prop := ∀ r ∈ t.rows, r.length = t.cols.length

instance (t : Table) : Decidable t.Rect := by
  unfold Table.Rect; infer_instance

/-- Index of the first column with the given name (pandas label lookup). -/
def colIdx : List String → String → Option Nat
  | [], _ => none
  | c :: cs, x => if c = x then some 0 else (colIdx cs x).map (· + 1)

/-- Cell of a row under a column name; `na` when the label is absent or the
row is too short (only reached where the script has already guarded
existence of the column). -/
def getCell (cols : List String) (r : List Cell) (c : String) : Cell :=
  match colIdx cols c with
  | some i => r.getD i Cell.na
  | none => Cell.na

/-- Line 8: hard-coded input path. -/
def CSV_FILENAME : String :=
  "/Users/ADMIN/Desktop/Cloudsim/cloudsim-3.0.3/cloudsim-3.0.3/compare_sla_results.csv"

/-- Line 9: output directory for the generated plots. -/
def OUTPUT_DIR : String := "sla_pso_plots"

/-- Line 56: the algorithm variant the analysis is restricted to. -/
def target_algorithm : String := "SLA-PSO"

/-- Lines 40-44: the 13 columns converted with `pd.to_numeric`. -/
def numeric_cols : List String :=
  ["NumVMs", "NumHosts", "Landscape", "ScalingFactor", "SLA_Violations",
   "Failed_Allocations", "Avg_ResponseTime", "Avg_TurnaroundTime", "Makespan",
   "Throughput", "Avg_Host_CPU_Util(%)", "StdDev_Host_CPU_Util(%)", "Avg_QoS_Index"]

/-- Line 51: the `dropna` subset of critical columns. -/
def critical_cols : List String :=
  ["Algorithm", "NumVMs", "NumHosts", "Landscape", "StdDev_Host_CPU_Util(%)"]

/-- Characters of a string with leading and trailing whitespace removed
(structural model of Python `str.strip()` / Lean `String.trim`). -/
def trimChars (l : List Char) : List Char :=
  ((l.dropWhile Char.isWhitespace).reverse.dropWhile Char.isWhitespace).reverse

/-- Whitespace-stripping on strings. -/
def strTrim (s : String) : String := String.mk (trimChars s.data)

/-- Digit-string accumulator for the decimal parser. -/
def parseNatDigitsAux : List Char → Nat → Option Nat
  | [], acc => some acc
  | c :: cs, acc =>
      if c.isDigit then parseNatDigitsAux cs (10 * acc + (c.toNat - 48)) else none

/-- Non-empty all-digit string to a natural number. -/
def parseNatDigits (cs : List Char) : Option Nat :=
  if cs.isEmpty then none else parseNatDigitsAux cs 0

/-- Split a character list at the occurrences of `'.'`. -/
def splitOnDotAux : List Char → List Char → List (List Char)
  | [], acc => [acc.reverse]
  | c :: cs, acc =>
      if c = '.' then acc.reverse :: splitOnDotAux cs []
      else splitOnDotAux cs (c :: acc)

/-- Split a character list at the occurrences of `'.'`, from the left. -/
def splitOnDot (l : List Char) : List (List Char) := splitOnDotAux l []

/-- Decimal-numeral semantics of `pd.to_numeric` on a single string value:
optional sign, integer part, optional fractional part; anything else is not
convertible. -/
def parseNum (s : String) : Option ℚ :=
  let cs := trimChars s.data
  let sgn : ℚ := if cs.head? = some '-' then -1 else 1
  let body := if cs.head? = some '-' ∨ cs.head? = some '+' then cs.drop 1 else cs
  match splitOnDot body with
  | [intPart] => (parseNatDigits intPart).map (fun n => sgn * (n : ℚ))
  | [intPart, fracPart] =>
      match parseNatDigits intPart, parseNatDigits fracPart with
      | some i, some f =>
          some (sgn * ((i : ℚ) + (f : ℚ) / ((10 : ℚ) ^ fracPart.length)))
      | _, _ => none
  | _ => none

/-- Elementwise `pd.to_numeric(value, errors='coerce')`: numbers stay,
convertible strings become numbers, everything else becomes missing. -/
def toNumericCell : Cell → Cell
  | Cell.str s =>
      match parseNum s with
      | some q => Cell.num q
      | none => Cell.na
  | Cell.num q => Cell.num q
  | Cell.na => Cell.na

/-- Line 29: `df.columns = df.columns.str.strip()`. -/
def stripColumns (t : Table) : Table :=
  { t with cols := t.cols.map strTrim }

/-- Pointwise update of the named column (used for `df[col] = ...` on an
existing column); a table without the column is returned unchanged. -/
def mapColumn (t : Table) (c : String) (f : Cell → Cell) : Table :=
  match colIdx t.cols c with
  | some i => { t with rows := t.rows.map (fun r => r.set i (f (r.getD i Cell.na))) }
  | none => t

/-- Lines 46-48: coerce each of the 13 listed columns that is present. -/
def coerceNumericCols (t : Table) : Table :=
  numeric_cols.foldl (fun u c => if c ∈ u.cols then mapColumn u c toNumericCell else u) t

/-- Line 51: `df.dropna(subset=...)`. When every subset column exists the
rows missing a value in one of them are removed; otherwise pandas raises
`KeyError` listing the absent columns, modelled by the `error` case.
`dropnaMissing` is that absent-column list. -/
def dropnaMissing (t : Table) (subset : List String) : List String :=
  subset.filter (fun c => decide (c ∉ t.cols))

/-- Rows kept by `dropna`: those with no missing value in the subset. -/
def dropnaKept (t : Table) (subset : List String) : List (List Cell) :=
  t.rows.filter (fun r => subset.all (fun c => !(getCell t.cols r c == Cell.na)))

/-- Line 51 dispatch: drop the incomplete rows, or raise `KeyError` when a
subset column is absent from the header. -/
def dropnaSubset (t : Table) (subset : List String) : Except (List String) Table :=
  if (dropnaMissing t subset).isEmpty then Except.ok { t with rows := dropnaKept t subset }
  else Except.error (dropnaMissing t subset)

/-- Line 57 predicate: `df['Algorithm'].str.strip() == target_algorithm`;
on a non-string value the `.str` accessor yields `NaN` and the comparison
is false. -/
def algoMatches (c : Cell) : Bool :=
  match c with
  | Cell.str s => strTrim s == target_algorithm
  | _ => false

/-- Line 57: restrict to the rows of the target algorithm. -/
def filterAlgo (t : Table) : Table :=
  { t with rows := t.rows.filter (fun r => algoMatches (getCell t.cols r "Algorithm")) }

/-- Line 60: the landscape-code dictionary. -/
def landscape_map (q : ℚ) : Option String :=
  if q = 1 then some "Homogeneous Small"
  else if q = 2 then some "Homogeneous Medium"
  else if q = 3 then some "Homogeneous Large"
  else if q = 4 then some "Heterogeneous"
  else none

/-- Line 62 elementwise: `map(landscape_map).fillna('Unknown')`; a
non-numeric value misses every integer dictionary key. -/
def landscapeDesc (c : Cell) : String :=
  match c with
  | Cell.num q => (landscape_map q).getD "Unknown"
  | _ => "Unknown"

/-- Column assignment `df[c] = <row function>`: overwrite the column when
present, append it otherwise. -/
def setColumn (t : Table) (c : String) (f : List Cell → Cell) : Table :=
  match colIdx t.cols c with
  | some i => { t with rows := t.rows.map (fun r => r.set i (f r)) }
  | none => { cols := t.cols ++ [c], rows := t.rows.map (fun r => r ++ [f r]) }

/-- Lines 61-62: derive the `Landscape_Desc` column when `Landscape`
exists. -/
def addLandscapeDesc (t : Table) : Table :=
  if "Landscape" ∈ t.cols then
    setColumn t "Landscape_Desc"
      (fun r => Cell.str (landscapeDesc (getCell t.cols r "Landscape")))
  else t

/-- Lines 57-62: the filtered, labelled `sla_pso_df` built from the cleaned
table. -/
def sla_pso_dfOf (t : Table) : Table :=
  addLandscapeDesc (filterAlgo t)

/-- Whole cleaning stage, lines 29-62: strip column names, require the
`Algorithm` column, coerce, drop incomplete rows (`none` also stands for
the `KeyError` abort), filter, label. -/
def cleanFilter (t : Table) : Option Table :=
  let t1 := stripColumns t
  if "Algorithm" ∈ t1.cols then
    match dropnaSubset (coerceNumericCols t1) critical_cols with
    | Except.ok t3 => some (sla_pso_dfOf t3)
    | Except.error _ => none
  else none

/-- Cleaned table of an input, with a default for the aborting cases. -/
def cleanFilterD (t : Table) : Table :=
  (cleanFilter t).getD ⟨[], []⟩

/-- Post-`dropna` table of an input, with a default for the aborting
cases. -/
def droppedD (t : Table) : Table :=
  ((dropnaSubset (coerceNumericCols (stripColumns t)) critical_cols).toOption).getD ⟨[], []⟩

/-- Numeric value of a cell, when it has one. -/
def cellNum? : Cell → Option ℚ
  | Cell.num q => some q
  | _ => none

/-- Insert into a ≤-sorted list of rationals. -/
def insertSortedQ (x : ℚ) : List ℚ → List ℚ
  | [] => [x]
  | y :: ys => if x ≤ y then x :: y :: ys else y :: insertSortedQ x ys

/-- Ascending insertion sort (pandas `groupby` emits keys sorted). -/
def sortQ (l : List ℚ) : List ℚ := l.foldr insertSortedQ []

/-- Numeric values appearing in the named column. -/
def columnNums (t : Table) (c : String) : List ℚ :=
  t.rows.filterMap (fun r => cellNum? (getCell t.cols r c))

/-- Group keys of `groupby(c)`: the distinct numeric values of the column,
ascending (pandas drops `NaN` keys and sorts). -/
def groupKeys (t : Table) (c : String) : List ℚ :=
  sortQ (columnNums t c).dedup

/-- Rows of the group with key `k`. -/
def groupRowsKey (t : Table) (c : String) (k : ℚ) : List (List Cell) :=
  t.rows.filter (fun r => getCell t.cols r c == Cell.num k)

/-- Arithmetic mean of a list of rationals. -/
def meanQ (l : List ℚ) : ℚ := l.sum / (l.length : ℚ)

/-- Lines 127-129 / 144-146 shape: `groupby(key).agg(mean of val)`,
`reset_index()` giving one `(key, mean)` row per distinct key, keys
ascending, `NaN` values skipped by the mean. -/
def groupbyMean (t : Table) (key val : String) : List (ℚ × ℚ) :=
  (groupKeys t key).map (fun k =>
    (k, meanQ ((groupRowsKey t key k).filterMap (fun r => cellNum? (getCell t.cols r val)))))

/-- Line 122. -/
def fixed_hosts_vm_scaling : ℚ := 5
/-- Line 123. -/
def fixed_landscape_vm_scaling : ℚ := 4
/-- Line 139. -/
def fixed_vms_host_scaling : ℚ := 30
/-- Line 140. -/
def fixed_landscape_host_scaling : ℚ := 4
/-- Line 156. -/
def fixed_vms_landscape : ℚ := 30
/-- Line 157. -/
def fixed_hosts_landscape : ℚ := 5

/-- Line 124: slice for the VM-scaling analysis. -/
def vm_scaling_dataOf (sla : Table) : Table :=
  { sla with rows := sla.rows.filter (fun r =>
      (getCell sla.cols r "NumHosts" == Cell.num fixed_hosts_vm_scaling) &&
      (getCell sla.cols r "Landscape" == Cell.num fixed_landscape_vm_scaling)) }

/-- Lines 127-129: the VM-scaling aggregate. -/
def vm_scaling_grouped (sla : Table) : List (ℚ × ℚ) :=
  groupbyMean (vm_scaling_dataOf sla) "NumVMs" "StdDev_Host_CPU_Util(%)"

/-- Line 141: slice for the host-scaling analysis. -/
def host_scaling_dataOf (sla : Table) : Table :=
  { sla with rows := sla.rows.filter (fun r =>
      (getCell sla.cols r "NumVMs" == Cell.num fixed_vms_host_scaling) &&
      (getCell sla.cols r "Landscape" == Cell.num fixed_landscape_host_scaling)) }

/-- Line 158: slice for the landscape-variation analysis. -/
def landscape_variation_dataOf (sla : Table) : Table :=
  { sla with rows := sla.rows.filter (fun r =>
      (getCell sla.cols r "NumVMs" == Cell.num fixed_vms_landscape) &&
      (getCell sla.cols r "NumHosts" == Cell.num fixed_hosts_landscape)) }

/-- Replace every occurrence of one character by a replacement string
(structural model of `str.replace` for the one-character patterns the
script uses). -/
def replChar (a : Char) (repl : List Char) : List Char → List Char
  | [] => []
  | c :: cs => if c = a then repl ++ replChar a repl cs else c :: replChar a repl cs

/-- Filename sanitization of the y-field used in every plot function:
`y.replace('(', '').replace(')', '').replace('%', 'pct')`. -/
def sanitizeY (y : String) : String :=
  String.mk (replChar '%' "pct".data (replChar ')' [] (replChar '(' [] y.data)))

/-- Output path of one plot: `os.path.join(OUTPUT_DIR, f"{pfx}_{sanitized}_{kind}.png")`. -/
def plotPath (pfx y kind : String) : String :=
  OUTPUT_DIR ++ "/" ++ pfx ++ "_" ++ sanitizeY y ++ "_" ++ kind ++ ".png"

/-- Line 132 plot file. -/
def vmScalingPlotPath : String :=
  plotPath "sla_pso_vm_scaling_stddev_cpu_util" "Avg_StdDev_Host_CPU_Util_Pct" "line"

/-- Line 149 plot file. -/
def hostScalingPlotPath : String :=
  plotPath "sla_pso_host_scaling_stddev_cpu_util" "Avg_StdDev_Host_CPU_Util_Pct" "line"

/-- Line 173 plot file. -/
def landscapeBarPath : String :=
  plotPath "sla_pso_landscape_stddev_cpu_util" "StdDev_Host_CPU_Util(%)" "bar"

/-- Line 176 plot file. -/
def landscapeCurvePath : String :=
  plotPath "sla_pso_landscape_stddev_cpu_util_curve" "StdDev_Host_CPU_Util(%)" "line"

/-- Line 180 plot file. -/
def landscapeBoxPath : String :=
  plotPath "sla_pso_landscape_stddev_cpu_util_boxplot" "StdDev_Host_CPU_Util(%)" "boxplot"

/-- Observable steps of one run of the script, in program order. -/
inductive Event where
  | ensureOutputDir
  | readCSV
  | loadedMsg
  | fileNotFoundMsg
  | loadErrorMsg
  | printUniqueAlgorithms
  | missingAlgorithmMsg
  | coerceColumn (c : String)
  | raisedKeyErr (missing : List String)
  | printCleanedInfo
  | noVmScalingDataMsg
  | noHostScalingDataMsg
  | noLandscapeDataMsg
  | plotSaved (path : String)
  | plotFailed (path : String)
  | completeMsg
deriving DecidableEq, Repr

/-- Outcome of `pd.read_csv` on the hard-coded path, the only part of the
environment the load stage branches on. -/
inductive LoadResult where
  | fileNotFound
  | loadError (msg : String)
  | ok (t : Table)

/-- Trace and exit status of one run. -/
structure RunResult where
  events : List Event
  exitCode : Nat
deriving DecidableEq, Repr

/-- Attempt the given plot saves in order; the first failing save raises,
so later ones are not attempted. -/
def runPlots (oracle : String → Bool) : List String → List Event × Bool
  | [] => ([], true)
  | p :: rest =>
      if oracle p then
        let res := runPlots oracle rest
        (Event.plotSaved p :: res.1, res.2)
      else ([Event.plotFailed p], false)

/-- One analysis block: skip with a diagnostic when the slice is empty,
otherwise render its plots. -/
def analysisStep (oracle : String → Bool) (empty : Bool) (noDataEv : Event)
    (paths : List String) : List Event × Bool :=
  if empty then ([noDataEv], true) else runPlots oracle paths

/-- Sequencing of the three analysis blocks: each block runs only when the
previous ones did not raise, and the completion message of line 185 prints
only when none raised. -/
def seq3 (s1 s2 s3 : List Event × Bool) : List Event × Bool :=
  if s1.2 then
    if s2.2 then
      if s3.2 then (s1.1 ++ s2.1 ++ s3.1 ++ [Event.completeMsg], true)
      else (s1.1 ++ s2.1 ++ s3.1, false)
    else (s1.1 ++ s2.1, false)
  else (s1.1, false)

/-- Lines 121-185: the three analysis blocks in order; an uncaught plot
exception stops the remaining blocks and the completion message. -/
def runAnalyses (oracle : String → Bool) (sla : Table) : List Event × Bool :=
  seq3
    (analysisStep oracle (vm_scaling_dataOf sla).rows.isEmpty
      Event.noVmScalingDataMsg [vmScalingPlotPath])
    (analysisStep oracle (host_scaling_dataOf sla).rows.isEmpty
      Event.noHostScalingDataMsg [hostScalingPlotPath])
    (analysisStep oracle (landscape_variation_dataOf sla).rows.isEmpty
      Event.noLandscapeDataMsg [landscapeBarPath, landscapeCurvePath, landscapeBoxPath])

/-- Coercion steps of lines 46-48: one per listed column present in the
header. -/
def coerceEvents (cols : List String) : List Event :=
  (numeric_cols.filter (fun c => cols.contains c)).map Event.coerceColumn

/-- Whole-script control flow over the load outcome and a plot-success
oracle.  `exit()` is called with no argument in the three diagnostic
cases, so the interpreter terminates with status 0 there; an unhandled
exception (missing `dropna` column, failed plot save) terminates with
status 1. -/
def run (inp : LoadResult) (oracle : String → Bool) : RunResult :=
  match inp with
  | LoadResult.fileNotFound =>
      ⟨[Event.ensureOutputDir, Event.readCSV, Event.fileNotFoundMsg], 0⟩
  | LoadResult.loadError _ =>
      ⟨[Event.ensureOutputDir, Event.readCSV, Event.loadErrorMsg], 0⟩
  | LoadResult.ok t0 =>
      let t1 := stripColumns t0
      if "Algorithm" ∈ t1.cols then
        let coerceEvs := coerceEvents t1.cols
        match dropnaSubset (coerceNumericCols t1) critical_cols with
        | Except.error missing =>
            ⟨[Event.ensureOutputDir, Event.readCSV, Event.loadedMsg, Event.printUniqueAlgorithms]
              ++ coerceEvs ++ [Event.raisedKeyErr missing], 1⟩
        | Except.ok t3 =>
            let a := runAnalyses oracle (sla_pso_dfOf t3)
            ⟨[Event.ensureOutputDir, Event.readCSV, Event.loadedMsg, Event.printUniqueAlgorithms]
              ++ coerceEvs ++ [Event.printCleanedInfo] ++ a.1,
             if a.2 then 0 else 1⟩
      else ⟨[Event.ensureOutputDir, Event.readCSV, Event.loadedMsg, Event.missingAlgorithmMsg], 0⟩

/-! ### Concrete input tables -/

/-- The six-row CSV of the end-to-end scenario: all rows `SLA-PSO`,
`NumHosts=5`, `Landscape=4`, `NumVMs` in (10,10,20,20,30,30) with
`StdDev_Host_CPU_Util(%)` values 1.0 to 6.0, full 14-column header. -/
def exampleTable6 : Table :=
  { cols := ["Algorithm", "NumVMs", "NumHosts", "Landscape", "ScalingFactor",
             "SLA_Violations", "Failed_Allocations", "Avg_ResponseTime",
             "Avg_TurnaroundTime", "Makespan", "Throughput",
             "Avg_Host_CPU_Util(%)", "StdDev_Host_CPU_Util(%)", "Avg_QoS_Index"],
    rows :=
      [[Cell.str "SLA-PSO", Cell.str "10", Cell.str "5", Cell.str "4", Cell.str "1.0",
        Cell.str "0", Cell.str "0", Cell.str "1.0", Cell.str "1.0", Cell.str "1.0",
        Cell.str "1.0", Cell.str "50.0", Cell.str "1.0", Cell.str "0.9"],
       [Cell.str "SLA-PSO", Cell.str "10", Cell.str "5", Cell.str "4", Cell.str "1.0",
        Cell.str "0", Cell.str "0", Cell.str "1.0", Cell.str "1.0", Cell.str "1.0",
        Cell.str "1.0", Cell.str "50.0", Cell.str "2.0", Cell.str "0.9"],
       [Cell.str "SLA-PSO", Cell.str "20", Cell.str "5", Cell.str "4", Cell.str "1.0",
        Cell.str "0", Cell.str "0", Cell.str "1.0", Cell.str "1.0", Cell.str "1.0",
        Cell.str "1.0", Cell.str "50.0", Cell.str "3.0", Cell.str "0.9"],
       [Cell.str "SLA-PSO", Cell.str "20", Cell.str "5", Cell.str "4", Cell.str "1.0",
        Cell.str "0", Cell.str "0", Cell.str "1.0", Cell.str "1.0", Cell.str "1.0",
        Cell.str "1.0", Cell.str "50.0", Cell.str "4.0", Cell.str "0.9"],
       [Cell.str "SLA-PSO", Cell.str "30", Cell.str "5", Cell.str "4", Cell.str "1.0",
        Cell.str "0", Cell.str "0", Cell.str "1.0", Cell.str "1.0", Cell.str "1.0",
        Cell.str "1.0", Cell.str "50.0", Cell.str "5.0", Cell.str "0.9"],
       [Cell.str "SLA-PSO", Cell.str "30", Cell.str "5", Cell.str "4", Cell.str "1.0",
        Cell.str "0", Cell.str "0", Cell.str "1.0", Cell.str "1.0", Cell.str "1.0",
        Cell.str "1.0", Cell.str "50.0", Cell.str "6.0", Cell.str "0.9"]] }

/-- One complete row whose Algorithm field carries a trailing blank. -/
def trailingWsTable : Table :=
  { cols := ["Algorithm", "NumVMs", "NumHosts", "Landscape", "StdDev_Host_CPU_Util(%)"],
    rows := [[Cell.str "SLA-PSO ", Cell.str "10", Cell.str "5", Cell.str "4",
      Cell.str "1.0"]] }

/-- Four rows whose Algorithm fields are the three whitespace variants of
the target plus one non-matching name. -/
def wsVariantsTable : Table :=
  { cols := ["Algorithm", "NumVMs", "NumHosts", "Landscape", "StdDev_Host_CPU_Util(%)"],
    rows :=
      [[Cell.str "SLA-PSO ", Cell.num 10, Cell.num 5, Cell.num 4, Cell.num 1],
       [Cell.str " SLA-PSO", Cell.num 10, Cell.num 5, Cell.num 4, Cell.num 2],
       [Cell.str "SLA-PSO", Cell.num 10, Cell.num 5, Cell.num 4, Cell.num 3],
       [Cell.str "SLA_PSO", Cell.num 10, Cell.num 5, Cell.num 4, Cell.num 4]] }

/-- A parseable table without an Algorithm column. -/
def noAlgoTable : Table :=
  { cols := ["Foo", "NumVMs"], rows := [[Cell.str "x", Cell.str "10"]] }

/-- A table with an Algorithm column but no NumVMs column. -/
def missingNumVMsTable : Table :=
  { cols := ["Algorithm", "NumHosts", "Landscape", "StdDev_Host_CPU_Util(%)"],
    rows := [[Cell.str "SLA-PSO", Cell.str "5", Cell.str "4", Cell.str "1.0"]] }

/-- One row at NumVMs=10, NumHosts=5, Landscape=4: the host-scaling slice
(NumVMs=30, Landscape=4) is empty while the VM-scaling slice is not. -/
def hostEmptyTable : Table :=
  { cols := ["Algorithm", "NumVMs", "NumHosts", "Landscape", "StdDev_Host_CPU_Util(%)"],
    rows := [[Cell.str "SLA-PSO", Cell.str "10", Cell.str "5", Cell.str "4",
      Cell.str "2.5"]] }

/-- One row at NumVMs=30, NumHosts=5, Landscape=1: only the
landscape-variation slice is nonempty, so its three plots are the only
plot calls. -/
def landscapeOnlyTable : Table :=
  { cols := ["Algorithm", "NumVMs", "NumHosts", "Landscape", "StdDev_Host_CPU_Util(%)"],
    rows := [[Cell.str "SLA-PSO", Cell.str "30", Cell.str "5", Cell.str "1",
      Cell.str "2.5"]] }

/-- Landscape label mapping written from the claim's words (C4): code 1
is Homogeneous Small, 2 Homogeneous Medium, 3 Homogeneous Large,
4 Heterogeneous, and every other code value is Unknown. -/
def claimLandscapeLabel (c : Cell) : String :=
  match c with
  | Cell.num q =>
      if q = 1 then "Homogeneous Small"
      else if q = 2 then "Homogeneous Medium"
      else if q = 3 then "Homogeneous Large"
      else if q = 4 then "Heterogeneous"
      else "Unknown"
  | _ => "Unknown"

/-! ### Column lookup lemmas -/

theorem colIdx_none_iff (cols : List String) (x : String) :
    colIdx cols x = none ↔ x ∉ cols := by
  induction cols with
  | nil => simp [colIdx]
  | cons c cs ih =>
      by_cases h : c = x
      · simp [colIdx, h]
      · simp only [colIdx, if_neg h, Option.map_eq_none', ih, List.mem_cons]
        constructor
        · intro hx hor
          rcases hor with h1 | h2
          · exact h h1.symm
          · exact hx h2
        · intro hx
          exact fun h2 => hx (Or.inr h2)

theorem colIdx_lt (cols : List String) (x : String) (i : Nat)
    (h : colIdx cols x = some i) : i < cols.length := by
  induction cols generalizing i with
  | nil => simp [colIdx] at h
  | cons c cs ih =>
      by_cases hc : c = x
      · simp [colIdx, hc] at h
        simp [← h]
      · simp only [colIdx, if_neg hc, Option.map_eq_some'] at h
        rcases h with ⟨j, hj, rfl⟩
        simpa using ih j hj

theorem colIdx_getD (cols : List String) (x : String) (i : Nat)
    (h : colIdx cols x = some i) : cols.getD i "" = x := by
  induction cols generalizing i with
  | nil => simp [colIdx] at h
  | cons c cs ih =>
      by_cases hc : c = x
      · simp [colIdx, hc] at h
        simp [← h, hc]
      · simp only [colIdx, if_neg hc, Option.map_eq_some'] at h
        rcases h with ⟨j, hj, rfl⟩
        simpa using ih j hj

theorem colIdx_append_some (cols ds : List String) (x : String) (i : Nat)
    (h : colIdx cols x = some i) : colIdx (cols ++ ds) x = some i := by
  induction cols generalizing i with
  | nil => simp [colIdx] at h
  | cons c cs ih =>
      by_cases hc : c = x
      · simp [colIdx, hc] at h ⊢
        exact h
      · simp only [colIdx, if_neg hc, Option.map_eq_some'] at h
        rcases h with ⟨j, hj, rfl⟩
        simp only [List.cons_append, colIdx, if_neg hc, Option.map_eq_some']
        exact ⟨j, ih j hj, rfl⟩

theorem colIdx_append_self (cols : List String) (x : String)
    (h : colIdx cols x = none) : colIdx (cols ++ [x]) x = some cols.length := by
  induction cols with
  | nil => simp [colIdx]
  | cons c cs ih =>
      by_cases hc : c = x
      · simp [colIdx, hc] at h
      · simp only [colIdx, if_neg hc, Option.map_eq_none'] at h
        simp only [List.cons_append, colIdx, if_neg hc, List.append_eq, ih h,
          Option.map_some', List.length_cons]

/-! ### Table operation lemmas -/

theorem mapColumn_cols (t : Table) (c : String) (f : Cell → Cell) :
    (mapColumn t c f).cols = t.cols := by
  unfold mapColumn
  cases colIdx t.cols c <;> rfl

theorem coerceFold_cols (l : List String) (t : Table) :
    (l.foldl (fun u c => if c ∈ u.cols then mapColumn u c toNumericCell else u) t).cols
      = t.cols := by
  induction l generalizing t with
  | nil => rfl
  | cons c cs ih =>
      simp only [List.foldl_cons]
      rw [ih]
      by_cases h : c ∈ t.cols
      · simp [h, mapColumn_cols]
      · simp [h]

theorem coerceNumericCols_cols (t : Table) :
    (coerceNumericCols t).cols = t.cols :=
  coerceFold_cols numeric_cols t

theorem dropnaSubset_ok_cols (t u : Table) (subset : List String)
    (h : dropnaSubset t subset = Except.ok u) : u.cols = t.cols := by
  simp only [dropnaSubset] at h
  split at h
  · cases h
    rfl
  · cases h

theorem dropnaSubset_ok_mem (t u : Table) (subset : List String) (r : List Cell)
    (h : dropnaSubset t subset = Except.ok u) (hr : r ∈ u.rows) :
    r ∈ t.rows ∧ ∀ c ∈ subset, getCell t.cols r c ≠ Cell.na := by
  simp only [dropnaSubset] at h
  split at h
  · cases h
    simp only [dropnaKept, List.mem_filter] at hr
    refine ⟨hr.1, fun c hc => ?_⟩
    have := (List.all_eq_true.mp hr.2) c hc
    simpa using this
  · cases h

theorem dropnaSubset_error_of_missing (t : Table) (subset : List String) (c : String)
    (hc : c ∈ subset) (hm : c ∉ t.cols) :
    ∃ missing, dropnaSubset t subset = Except.error missing ∧ missing ≠ [] := by
  have hmem : c ∈ dropnaMissing t subset := by
    simp [dropnaMissing, List.mem_filter, hc, hm]
  have hne : dropnaMissing t subset ≠ [] := by
    intro h0
    rw [h0] at hmem
    exact (List.not_mem_nil c) hmem
  have hie : (dropnaMissing t subset).isEmpty = false := by
    cases hfil : dropnaMissing t subset with
    | nil => exact absurd hfil hne
    | cons a as => rfl
  refine ⟨dropnaMissing t subset, ?_, hne⟩
  unfold dropnaSubset
  rw [hie]
  rfl

theorem filterAlgo_cols (t : Table) : (filterAlgo t).cols = t.cols := rfl

theorem mem_filterAlgo (t : Table) (r : List Cell) :
    r ∈ (filterAlgo t).rows ↔
      r ∈ t.rows ∧ algoMatches (getCell t.cols r "Algorithm") = true := by
  simp [filterAlgo, List.mem_filter]

theorem algoMatches_iff (c : Cell) :
    algoMatches c = true ↔ ∃ s, c = Cell.str s ∧ strTrim s = target_algorithm := by
  cases c with
  | str s => simp [algoMatches]
  | num q => simp [algoMatches]
  | na => simp [algoMatches]

theorem colIdx_isSome_of_mem (cols : List String) (x : String) (h : x ∈ cols) :
    ∃ i, colIdx cols x = some i := by
  cases hi : colIdx cols x with
  | none => exact absurd h ((colIdx_none_iff cols x).mp hi)
  | some i => exact ⟨i, rfl⟩

theorem getD_set_self (l : List Cell) (i : Nat) (x d : Cell) (h : i < l.length) :
    (l.set i x).getD i d = x := by
  simp [List.getD, List.getElem?_set_self, h]

theorem getD_set_ne (l : List Cell) (i j : Nat) (x d : Cell) (h : i ≠ j) :
    (l.set i x).getD j d = l.getD j d := by
  simp [List.getD, List.getElem?_set_ne h]

theorem getD_append_lt (l m : List Cell) (j : Nat) (d : Cell) (h : j < l.length) :
    (l ++ m).getD j d = l.getD j d := by
  simp [List.getD, List.getElem?_append_left h]

theorem getD_append_len (l : List Cell) (x d : Cell) :
    (l ++ [x]).getD l.length d = x := by
  simp [List.getD, List.getElem?_append_right (Nat.le_refl _)]

theorem filterAlgo_rect (t : Table) (h : t.Rect) : (filterAlgo t).Rect := by
  intro r hr
  exact h r ((mem_filterAlgo t r).mp hr).1

/-! ### Derived landscape column -/

theorem addLandscapeDesc_desc (u : Table) (hrect : u.Rect) (hl : "Landscape" ∈ u.cols) :
    ∀ r ∈ (addLandscapeDesc u).rows,
      getCell (addLandscapeDesc u).cols r "Landscape_Desc" =
        Cell.str (landscapeDesc (getCell (addLandscapeDesc u).cols r "Landscape")) := by
  intro r hr
  obtain ⟨j, hj⟩ := colIdx_isSome_of_mem u.cols "Landscape" hl
  have hjlen : j < u.cols.length := colIdx_lt u.cols "Landscape" j hj
  unfold addLandscapeDesc at hr ⊢
  rw [if_pos hl] at hr ⊢
  unfold setColumn at hr ⊢
  cases hidx : colIdx u.cols "Landscape_Desc" with
  | some i =>
      simp only [hidx, List.mem_map] at hr ⊢
      rcases hr with ⟨r0, hr0, rfl⟩
      have hilen : i < u.cols.length := colIdx_lt u.cols "Landscape_Desc" i hidx
      have hrlen : r0.length = u.cols.length := hrect r0 hr0
      have hij : i ≠ j := by
        intro he
        have h1 := colIdx_getD u.cols "Landscape_Desc" i hidx
        have h2 := colIdx_getD u.cols "Landscape" j hj
        rw [he, h2] at h1
        exact absurd h1 (by decide)
      simp only [getCell, hidx, hj]
      rw [getD_set_self _ i _ _ (by rw [hrlen]; exact hilen),
        getD_set_ne _ i j _ _ hij]
  | none =>
      simp only [hidx, List.mem_map] at hr ⊢
      rcases hr with ⟨r0, hr0, rfl⟩
      have hrlen : r0.length = u.cols.length := hrect r0 hr0
      simp only [getCell, colIdx_append_self u.cols "Landscape_Desc" hidx,
        colIdx_append_some u.cols ["Landscape_Desc"] "Landscape" j hj, hj]
      rw [show u.cols.length = r0.length from hrlen.symm, getD_append_len]
      rw [getD_append_lt _ _ j _ (by rw [hrlen]; exact hjlen)]

/-! ### Sorting, deduplication and the groupby aggregate -/

theorem insertSortedQ_perm (x : ℚ) (l : List ℚ) :
    (insertSortedQ x l).Perm (x :: l) := by
  induction l with
  | nil => exact List.Perm.refl _
  | cons y ys ih =>
      unfold insertSortedQ
      split
      · exact List.Perm.refl _
      · exact (ih.cons y).trans (List.Perm.swap x y ys)

theorem sortQ_perm (l : List ℚ) : (sortQ l).Perm l := by
  induction l with
  | nil => exact List.Perm.refl _
  | cons x xs ih => exact (insertSortedQ_perm x (sortQ xs)).trans (ih.cons x)

theorem groupKeys_nodup (t : Table) (c : String) : (groupKeys t c).Nodup :=
  ((sortQ_perm (columnNums t c).dedup).nodup_iff).mpr (List.nodup_dedup _)

theorem mem_groupKeys (t : Table) (c : String) (k : ℚ) :
    k ∈ groupKeys t c ↔ k ∈ columnNums t c := by
  unfold groupKeys
  rw [(sortQ_perm _).mem_iff, List.mem_dedup]

theorem cellNum?_eq_some (x : Cell) (k : ℚ) : cellNum? x = some k ↔ x = Cell.num k := by
  cases x <;> simp [cellNum?]

theorem mem_columnNums (t : Table) (c : String) (k : ℚ) :
    k ∈ columnNums t c ↔ ∃ r ∈ t.rows, getCell t.cols r c = Cell.num k := by
  simp [columnNums, List.mem_filterMap, cellNum?_eq_some]

theorem groupbyMean_keys (t : Table) (key val : String) :
    (groupbyMean t key val).map Prod.fst = groupKeys t key := by
  simp only [groupbyMean, List.map_map]
  exact List.map_id _

theorem mem_groupbyMean (t : Table) (key val : String) (kv : ℚ × ℚ)
    (h : kv ∈ groupbyMean t key val) :
    kv.1 ∈ groupKeys t key ∧
      kv.2 = meanQ ((groupRowsKey t key kv.1).filterMap
        (fun r => cellNum? (getCell t.cols r val))) := by
  simp only [groupbyMean, List.mem_map] at h
  rcases h with ⟨k, hk, rfl⟩
  exact ⟨hk, rfl⟩

/-! ### Plot and analysis control flow -/

theorem runPlots_allTrue (ps : List String) :
    runPlots (fun _ => true) ps = (ps.map Event.plotSaved, true) := by
  induction ps with
  | nil => rfl
  | cons p rest ih => simp [runPlots, ih]

theorem runPlots_events_of_true (o : String → Bool) (ps : List String)
    (h : (runPlots o ps).2 = true) : (runPlots o ps).1 = ps.map Event.plotSaved := by
  induction ps with
  | nil => rfl
  | cons p rest ih =>
      cases hp : o p with
      | true =>
          simp only [runPlots, hp, if_true, List.map_cons] at h ⊢
          rw [ih h]
      | false => simp [runPlots, hp] at h

theorem mem_runPlots (o : String → Bool) (ps : List String) (ev : Event)
    (h : ev ∈ (runPlots o ps).1) :
    (∃ p ∈ ps, ev = Event.plotSaved p) ∨ (∃ p ∈ ps, ev = Event.plotFailed p) := by
  induction ps with
  | nil => simp [runPlots] at h
  | cons p rest ih =>
      cases hp : o p with
      | true =>
          simp only [runPlots, hp, if_true, List.mem_cons] at h
          rcases h with h | h
          · exact Or.inl ⟨p, List.mem_cons_self p rest, h⟩
          · rcases ih h with ⟨q, hq, he⟩ | ⟨q, hq, he⟩
            · exact Or.inl ⟨q, List.mem_cons_of_mem p hq, he⟩
            · exact Or.inr ⟨q, List.mem_cons_of_mem p hq, he⟩
      | false =>
          simp only [runPlots, hp, Bool.false_eq_true, if_false, List.mem_singleton] at h
          exact Or.inr ⟨p, List.mem_cons_self p rest, h⟩

theorem runPlots_false_shape (o : String → Bool) (ps : List String)
    (h : (runPlots o ps).2 = false) :
    ∃ pre q, (runPlots o ps).1 = pre ++ [Event.plotFailed q] ∧
      ∀ p, Event.plotFailed p ∈ (runPlots o ps).1 → p = q := by
  induction ps with
  | nil => simp [runPlots] at h
  | cons p rest ih =>
      cases hp : o p with
      | true =>
          simp only [runPlots, hp, if_true] at h ⊢
          rcases ih h with ⟨pre, q, he, hu⟩
          refine ⟨Event.plotSaved p :: pre, q, by simp [he], ?_⟩
          intro x hx
          rw [List.mem_cons] at hx
          rcases hx with hx | hx
          · simp at hx
          · exact hu x hx
      | false =>
          refine ⟨[], p, by simp [runPlots, hp], ?_⟩
          intro x hx
          simp [runPlots, hp] at hx
          exact hx

theorem analysisStep_false_shape (o : String → Bool) (e : Bool) (n : Event)
    (ps : List String) (h : (analysisStep o e n ps).2 = false) :
    ∃ pre q, (analysisStep o e n ps).1 = pre ++ [Event.plotFailed q] ∧
      ∀ p, Event.plotFailed p ∈ (analysisStep o e n ps).1 → p = q := by
  cases e with
  | true => simp [analysisStep] at h
  | false => exact runPlots_false_shape o ps h

theorem mem_analysisStep (o : String → Bool) (e : Bool) (n : Event) (ps : List String)
    (ev : Event) (h : ev ∈ (analysisStep o e n ps).1) :
    ev = n ∨ (∃ p ∈ ps, ev = Event.plotSaved p) ∨ (∃ p ∈ ps, ev = Event.plotFailed p) := by
  cases e with
  | true =>
      left
      simpa [analysisStep] using h
  | false => exact Or.inr (mem_runPlots o ps ev h)

theorem analysisStep_true_no_failed (o : String → Bool) (e : Bool) (n : Event)
    (ps : List String) (hn : ∀ p, n ≠ Event.plotFailed p)
    (h : (analysisStep o e n ps).2 = true) :
    ∀ p, Event.plotFailed p ∉ (analysisStep o e n ps).1 := by
  intro p hp
  cases e with
  | true =>
      simp only [analysisStep, if_true] at hp
      rw [List.mem_singleton] at hp
      exact hn p hp.symm
  | false =>
      have := runPlots_events_of_true o ps h
      rw [show (analysisStep o false n ps).1 = (runPlots o ps).1 from rfl, this] at hp
      simp only [List.mem_map] at hp
      rcases hp with ⟨q, _, he⟩
      exact Event.noConfusion he

theorem seq3_true (s1 s2 s3 : List Event × Bool) (h : (seq3 s1 s2 s3).2 = true) :
    s1.2 = true ∧ s2.2 = true ∧ s3.2 = true ∧
      (seq3 s1 s2 s3).1 = s1.1 ++ s2.1 ++ s3.1 ++ [Event.completeMsg] := by
  unfold seq3 at h ⊢
  cases h1 : s1.2 <;> cases h2 : s2.2 <;> cases h3 : s3.2 <;> simp_all

theorem seq3_false_shape (s1 s2 s3 : List Event × Bool) (h : (seq3 s1 s2 s3).2 = false) :
    (s1.2 = false ∧ (seq3 s1 s2 s3).1 = s1.1) ∨
    (s1.2 = true ∧ s2.2 = false ∧ (seq3 s1 s2 s3).1 = s1.1 ++ s2.1) ∨
    (s1.2 = true ∧ s2.2 = true ∧ s3.2 = false ∧
      (seq3 s1 s2 s3).1 = s1.1 ++ s2.1 ++ s3.1) := by
  unfold seq3 at h ⊢
  cases h1 : s1.2 <;> cases h2 : s2.2 <;> cases h3 : s3.2 <;> simp_all

/-! ### Whole-run branch lemmas -/

theorem mem_coerceEvents (cols : List String) (ev : Event) (h : ev ∈ coerceEvents cols) :
    ∃ c, ev = Event.coerceColumn c := by
  simp only [coerceEvents, List.mem_map] at h
  rcases h with ⟨c, _, rfl⟩
  exact ⟨c, rfl⟩

theorem run_fileNotFound (o : String → Bool) :
    run LoadResult.fileNotFound o =
      ⟨[Event.ensureOutputDir, Event.readCSV, Event.fileNotFoundMsg], 0⟩ := rfl

theorem run_loadError (m : String) (o : String → Bool) :
    run (LoadResult.loadError m) o =
      ⟨[Event.ensureOutputDir, Event.readCSV, Event.loadErrorMsg], 0⟩ := rfl

theorem run_ok_noAlgo (t : Table) (o : String → Bool)
    (h : "Algorithm" ∉ (stripColumns t).cols) :
    run (LoadResult.ok t) o =
      ⟨[Event.ensureOutputDir, Event.readCSV, Event.loadedMsg,
        Event.missingAlgorithmMsg], 0⟩ := by
  simp [run, h]

theorem run_ok_keyErr (t : Table) (o : String → Bool) (missing : List String)
    (h1 : "Algorithm" ∈ (stripColumns t).cols)
    (h2 : dropnaSubset (coerceNumericCols (stripColumns t)) critical_cols
      = Except.error missing) :
    run (LoadResult.ok t) o =
      ⟨[Event.ensureOutputDir, Event.readCSV, Event.loadedMsg,
        Event.printUniqueAlgorithms] ++ coerceEvents (stripColumns t).cols
        ++ [Event.raisedKeyErr missing], 1⟩ := by
  simp [run, h1, h2]

theorem run_ok_analyses (t : Table) (o : String → Bool) (t3 : Table)
    (h1 : "Algorithm" ∈ (stripColumns t).cols)
    (h2 : dropnaSubset (coerceNumericCols (stripColumns t)) critical_cols
      = Except.ok t3) :
    run (LoadResult.ok t) o =
      ⟨[Event.ensureOutputDir, Event.readCSV, Event.loadedMsg,
        Event.printUniqueAlgorithms] ++ coerceEvents (stripColumns t).cols
        ++ [Event.printCleanedInfo] ++ (runAnalyses o (sla_pso_dfOf t3)).1,
       if (runAnalyses o (sla_pso_dfOf t3)).2 then 0 else 1⟩ := by
  simp [run, h1, h2]

theorem completeMsg_not_mem_analysisStep (o : String → Bool) (e : Bool) (n : Event)
    (ps : List String) (hn : n ≠ Event.completeMsg) :
    Event.completeMsg ∉ (analysisStep o e n ps).1 := by
  intro h
  rcases mem_analysisStep o e n ps _ h with h | ⟨p, _, h⟩ | ⟨p, _, h⟩
  · exact hn h.symm
  · exact Event.noConfusion h
  · exact Event.noConfusion h

theorem runAnalyses_true_mem (o : String → Bool) (sla : Table)
    (h : (runAnalyses o sla).2 = true) :
    Event.completeMsg ∈ (runAnalyses o sla).1 ∧
      ∀ p, Event.plotFailed p ∉ (runAnalyses o sla).1 := by
  unfold runAnalyses at h ⊢
  obtain ⟨h1, h2, h3, he⟩ := seq3_true _ _ _ h
  rw [he]
  refine ⟨by simp, ?_⟩
  intro p hp
  simp only [List.mem_append, List.mem_singleton] at hp
  rcases hp with ((hp | hp) | hp) | hp
  · exact analysisStep_true_no_failed o _ _ _ (fun q hq => Event.noConfusion hq) h1 p hp
  · exact analysisStep_true_no_failed o _ _ _ (fun q hq => Event.noConfusion hq) h2 p hp
  · exact analysisStep_true_no_failed o _ _ _ (fun q hq => Event.noConfusion hq) h3 p hp
  · exact Event.noConfusion hp

theorem seq3_false_events (s1 s2 s3 : List Event × Bool)
    (hc1 : Event.completeMsg ∉ s1.1) (hc2 : Event.completeMsg ∉ s2.1)
    (hc3 : Event.completeMsg ∉ s3.1)
    (ht1 : s1.2 = true → ∀ p, Event.plotFailed p ∉ s1.1)
    (ht2 : s2.2 = true → ∀ p, Event.plotFailed p ∉ s2.1)
    (hf1 : s1.2 = false → ∃ pre q, s1.1 = pre ++ [Event.plotFailed q] ∧
      ∀ p, Event.plotFailed p ∈ s1.1 → p = q)
    (hf2 : s2.2 = false → ∃ pre q, s2.1 = pre ++ [Event.plotFailed q] ∧
      ∀ p, Event.plotFailed p ∈ s2.1 → p = q)
    (hf3 : s3.2 = false → ∃ pre q, s3.1 = pre ++ [Event.plotFailed q] ∧
      ∀ p, Event.plotFailed p ∈ s3.1 → p = q)
    (h : (seq3 s1 s2 s3).2 = false) :
    Event.completeMsg ∉ (seq3 s1 s2 s3).1 ∧
      ∃ pre q, (seq3 s1 s2 s3).1 = pre ++ [Event.plotFailed q] ∧
        ∀ p, Event.plotFailed p ∈ (seq3 s1 s2 s3).1 → p = q := by
  rcases seq3_false_shape s1 s2 s3 h with ⟨h1, he⟩ | ⟨h1, h2, he⟩ | ⟨h1, h2, h3, he⟩
  · rw [he]
    obtain ⟨pre, q, hq, hu⟩ := hf1 h1
    exact ⟨hc1, pre, q, hq, hu⟩
  · rw [he]
    obtain ⟨pre, q, hq, hu⟩ := hf2 h2
    refine ⟨?_, s1.1 ++ pre, q, by simp [hq], ?_⟩
    · intro hc
      rcases List.mem_append.mp hc with hc | hc
      exacts [hc1 hc, hc2 hc]
    · intro p hp
      rcases List.mem_append.mp hp with hp | hp
      · exact absurd hp (ht1 h1 p)
      · exact hu p hp
  · rw [he]
    obtain ⟨pre, q, hq, hu⟩ := hf3 h3
    refine ⟨?_, s1.1 ++ s2.1 ++ pre, q, by simp [hq], ?_⟩
    · intro hc
      rcases List.mem_append.mp hc with hc | hc
      · rcases List.mem_append.mp hc with hc | hc
        exacts [hc1 hc, hc2 hc]
      · exact hc3 hc
    · intro p hp
      rcases List.mem_append.mp hp with hp | hp
      · rcases List.mem_append.mp hp with hp | hp
        · exact absurd hp (ht1 h1 p)
        · exact absurd hp (ht2 h2 p)
      · exact hu p hp

theorem runAnalyses_false_events (o : String → Bool) (sla : Table)
    (h : (runAnalyses o sla).2 = false) :
    Event.completeMsg ∉ (runAnalyses o sla).1 ∧
      ∃ pre q, (runAnalyses o sla).1 = pre ++ [Event.plotFailed q] ∧
        ∀ p, Event.plotFailed p ∈ (runAnalyses o sla).1 → p = q := by
  unfold runAnalyses at h ⊢
  exact seq3_false_events _ _ _
    (completeMsg_not_mem_analysisStep o _ _ _ (fun hx => Event.noConfusion hx))
    (completeMsg_not_mem_analysisStep o _ _ _ (fun hx => Event.noConfusion hx))
    (completeMsg_not_mem_analysisStep o _ _ _ (fun hx => Event.noConfusion hx))
    (fun ht p => analysisStep_true_no_failed o _ _ _ (fun q hq => Event.noConfusion hq) ht p)
    (fun ht p => analysisStep_true_no_failed o _ _ _ (fun q hq => Event.noConfusion hq) ht p)
    (fun hf => analysisStep_false_shape o _ _ _ hf)
    (fun hf => analysisStep_false_shape o _ _ _ hf)
    (fun hf => analysisStep_false_shape o _ _ _ hf)
    h

/-! ### Claim theorems -/

/-- Claim C1: for every cleaned and filtered table whose rows all have
NumHosts = 5 and Landscape = 4, the VM-scaling aggregate contains exactly
one row per distinct NumVMs value (the key list has no duplicates and a
key occurs exactly when some row has that NumVMs value), pairing it with
the arithmetic mean of StdDev_Host_CPU_Util(%) over the rows with that
NumVMs value; and on the concrete six-row CSV with NumVMs
(10,10,20,20,30,30) and StdDev values 1.0..6.0 the aggregate is exactly
((10,1.5),(20,3.5),(30,5.5)). -/
theorem vm_scaling_aggregate_spec (t u : Table)
    (hclean : cleanFilter t = some u)
    (hrows : ∀ r ∈ u.rows,
      getCell u.cols r "NumHosts" = Cell.num 5 ∧
        getCell u.cols r "Landscape" = Cell.num 4) :
    (((vm_scaling_grouped u).map Prod.fst).Nodup ∧
      (∀ k : ℚ, k ∈ (vm_scaling_grouped u).map Prod.fst ↔
        ∃ r ∈ u.rows, getCell u.cols r "NumVMs" = Cell.num k) ∧
      (∀ kv ∈ vm_scaling_grouped u,
        kv.2 = meanQ ((u.rows.filter
            (fun r => getCell u.cols r "NumVMs" == Cell.num kv.1)).filterMap
          (fun r => cellNum? (getCell u.cols r "StdDev_Host_CPU_Util(%)"))))) ∧
    (cleanFilter exampleTable6 = some (cleanFilterD exampleTable6) ∧
      vm_scaling_grouped (cleanFilterD exampleTable6) =
        [(10, 3/2), (20, 7/2), (30, 11/2)]) := by
  have hdata : (vm_scaling_dataOf u).rows = u.rows := by
    unfold vm_scaling_dataOf
    apply List.filter_eq_self.mpr
    intro r hr
    obtain ⟨hh, hl⟩ := hrows r hr
    simp [hh, hl, fixed_hosts_vm_scaling, fixed_landscape_vm_scaling]
  have hcols : (vm_scaling_dataOf u).cols = u.cols := rfl
  refine ⟨⟨?_, ?_, ?_⟩, by with_unfolding_all decide⟩
  · rw [vm_scaling_grouped, groupbyMean_keys]
    exact groupKeys_nodup _ _
  · intro k
    rw [vm_scaling_grouped, groupbyMean_keys, mem_groupKeys, mem_columnNums,
      hcols, hdata]
  · intro kv hkv
    have := (mem_groupbyMean _ _ _ kv hkv).2
    rw [this, groupRowsKey, hcols, hdata]

/-- Witness for C1: the six-row example table satisfies the hypotheses and
the conclusion. -/
theorem vm_scaling_aggregate_spec_witness :
    (cleanFilter exampleTable6 = some (cleanFilterD exampleTable6) ∧
      ∀ r ∈ (cleanFilterD exampleTable6).rows,
        getCell (cleanFilterD exampleTable6).cols r "NumHosts" = Cell.num 5 ∧
          getCell (cleanFilterD exampleTable6).cols r "Landscape" = Cell.num 4) ∧
    ((((vm_scaling_grouped (cleanFilterD exampleTable6)).map Prod.fst).Nodup ∧
      (∀ k : ℚ, k ∈ (vm_scaling_grouped (cleanFilterD exampleTable6)).map Prod.fst ↔
        ∃ r ∈ (cleanFilterD exampleTable6).rows,
          getCell (cleanFilterD exampleTable6).cols r "NumVMs" = Cell.num k) ∧
      (∀ kv ∈ vm_scaling_grouped (cleanFilterD exampleTable6),
        kv.2 = meanQ (((cleanFilterD exampleTable6).rows.filter
            (fun r => getCell (cleanFilterD exampleTable6).cols r "NumVMs"
              == Cell.num kv.1)).filterMap
          (fun r => cellNum? (getCell (cleanFilterD exampleTable6).cols r
            "StdDev_Host_CPU_Util(%)"))))) ∧
    (cleanFilter exampleTable6 = some (cleanFilterD exampleTable6) ∧
      vm_scaling_grouped (cleanFilterD exampleTable6) =
        [(10, 3/2), (20, 7/2), (30, 11/2)])) :=
  ⟨⟨by with_unfolding_all decide, by with_unfolding_all decide⟩,
    vm_scaling_aggregate_spec exampleTable6 (cleanFilterD exampleTable6)
      (by with_unfolding_all decide) (by with_unfolding_all decide)⟩

/-- Claim C2 counterexample: the one-row table whose Algorithm field is
"SLA-PSO " (trailing blank) survives cleaning and filtering with the field
unchanged, refuting "every remaining row's Algorithm field equals the
fixed target string". -/
theorem cleaned_algorithm_field_cex :
    (cleanFilterD trailingWsTable).rows.length = 1 ∧
    (∀ r ∈ (cleanFilterD trailingWsTable).rows,
      getCell (cleanFilterD trailingWsTable).cols r "Algorithm"
        = Cell.str "SLA-PSO ") ∧
    ¬ (∀ r ∈ (cleanFilterD trailingWsTable).rows,
        getCell (cleanFilterD trailingWsTable).cols r "Algorithm"
          = Cell.str target_algorithm) := by
  with_unfolding_all decide

/-- Claim C2 (amended): after the numeric coercion, the dropna step and
the algorithm filter, every remaining row has non-missing values in the
five critical columns, and its Algorithm field is a string equal to
"SLA-PSO" after trimming (the stored field may retain surrounding
whitespace). -/
theorem cleaned_rows_invariant (t t3 : Table)
    (hdrop : dropnaSubset (coerceNumericCols (stripColumns t)) critical_cols
      = Except.ok t3) :
    ∀ r ∈ (filterAlgo t3).rows,
      (∀ c ∈ critical_cols, getCell (filterAlgo t3).cols r c ≠ Cell.na) ∧
      ∃ s, getCell (filterAlgo t3).cols r "Algorithm" = Cell.str s ∧
        strTrim s = target_algorithm := by
  intro r hr
  rw [mem_filterAlgo] at hr
  obtain ⟨hr3, hmatch⟩ := hr
  have hcols3 : t3.cols = (coerceNumericCols (stripColumns t)).cols :=
    dropnaSubset_ok_cols _ _ _ hdrop
  obtain ⟨hrin, hna⟩ := dropnaSubset_ok_mem _ _ _ r hdrop hr3
  constructor
  · intro c hc
    rw [show (filterAlgo t3).cols = t3.cols from rfl, hcols3]
    exact hna c hc
  · obtain ⟨s, hs, htrim⟩ := (algoMatches_iff _).mp hmatch
    exact ⟨s, by rw [show (filterAlgo t3).cols = t3.cols from rfl]; exact hs, htrim⟩

/-- Witness for the amended C2 on the six-row example table. -/
theorem cleaned_rows_invariant_witness :
    dropnaSubset (coerceNumericCols (stripColumns exampleTable6)) critical_cols
      = Except.ok (droppedD exampleTable6) ∧
    ∀ r ∈ (filterAlgo (droppedD exampleTable6)).rows,
      (∀ c ∈ critical_cols,
        getCell (filterAlgo (droppedD exampleTable6)).cols r c ≠ Cell.na) ∧
      ∃ s, getCell (filterAlgo (droppedD exampleTable6)).cols r "Algorithm"
          = Cell.str s ∧ strTrim s = target_algorithm :=
  ⟨by with_unfolding_all decide,
    cleaned_rows_invariant exampleTable6 (droppedD exampleTable6)
      (by with_unfolding_all decide)⟩

/-- Claim C3: a row passes the algorithm filter exactly when it is a row
of the table and its Algorithm value is a string whose trimmed form is
the literal "SLA-PSO"; in particular, of the four concrete rows with
Algorithm "SLA-PSO ", " SLA-PSO", "SLA-PSO" and "SLA_PSO", exactly the
first three are kept. -/
theorem algorithm_filter_trim_iff :
    (∀ (t : Table) (r : List Cell),
      r ∈ (filterAlgo t).rows ↔
        r ∈ t.rows ∧ ∃ s, getCell t.cols r "Algorithm" = Cell.str s ∧
          strTrim s = target_algorithm) ∧
    (filterAlgo wsVariantsTable).rows = wsVariantsTable.rows.take 3 := by
  constructor
  · intro t r
    rw [mem_filterAlgo, algoMatches_iff]
  · with_unfolding_all decide

/-- Witness for C3: the concrete whitespace-variant table evaluated. -/
theorem algorithm_filter_trim_iff_witness :
    (filterAlgo wsVariantsTable).rows = wsVariantsTable.rows.take 3 :=
  algorithm_filter_trim_iff.2

/-- Claim C4: in the filtered, labelled table built from a rectangular
cleaned table containing a Landscape column, every row's Landscape_Desc
field is the claim's mapping of its Landscape code: 1 ↦ Homogeneous
Small, 2 ↦ Homogeneous Medium, 3 ↦ Homogeneous Large, 4 ↦ Heterogeneous,
every other code ↦ Unknown. -/
theorem landscape_label_mapping (t3 : Table) (hrect : t3.Rect)
    (hl : "Landscape" ∈ t3.cols) :
    ∀ r ∈ (sla_pso_dfOf t3).rows,
      getCell (sla_pso_dfOf t3).cols r "Landscape_Desc" =
        Cell.str (claimLandscapeLabel
          (getCell (sla_pso_dfOf t3).cols r "Landscape")) := by
  intro r hr
  have hdesc := addLandscapeDesc_desc (filterAlgo t3) (filterAlgo_rect t3 hrect) hl r hr
  rw [show sla_pso_dfOf t3 = addLandscapeDesc (filterAlgo t3) from rfl, hdesc]
  congr 1
  generalize getCell (addLandscapeDesc (filterAlgo t3)).cols r "Landscape" = c
  cases c with
  | str s => rfl
  | na => rfl
  | num q =>
      simp only [landscapeDesc, landscape_map, claimLandscapeLabel]
      by_cases h1 : q = 1
      · simp [h1]
      · by_cases h2 : q = 2
        · simp [h1, h2]
        · by_cases h3 : q = 3
          · simp [h1, h2, h3]
          · by_cases h4 : q = 4
            · simp [h1, h2, h3, h4]
            · simp [h1, h2, h3, h4]

/-- Witness for C4 on the six-row example table. -/
theorem landscape_label_mapping_witness :
    (Table.Rect (droppedD exampleTable6) ∧ "Landscape" ∈ (droppedD exampleTable6).cols) ∧
    ∀ r ∈ (sla_pso_dfOf (droppedD exampleTable6)).rows,
      getCell (sla_pso_dfOf (droppedD exampleTable6)).cols r "Landscape_Desc" =
        Cell.str (claimLandscapeLabel
          (getCell (sla_pso_dfOf (droppedD exampleTable6)).cols r "Landscape")) :=
  ⟨⟨by with_unfolding_all decide, by with_unfolding_all decide⟩,
    landscape_label_mapping (droppedD exampleTable6)
      (by with_unfolding_all decide) (by with_unfolding_all decide)⟩

theorem head_events_mem (cols : List String) (ev : Event)
    (h : ev ∈ [Event.ensureOutputDir, Event.readCSV, Event.loadedMsg,
      Event.printUniqueAlgorithms] ++ coerceEvents cols) :
    ev = Event.ensureOutputDir ∨ ev = Event.readCSV ∨ ev = Event.loadedMsg ∨
      ev = Event.printUniqueAlgorithms ∨ ∃ c, ev = Event.coerceColumn c := by
  rcases List.mem_append.mp h with h | h
  · simp at h
    tauto
  · exact Or.inr (Or.inr (Or.inr (Or.inr (mem_coerceEvents cols ev h))))

/-- Claim C5: when the stripped header lacks an Algorithm column the run
prints the diagnostic and terminates before any numeric conversion, any
dropna step, any cleaning report, and any plotting. -/
theorem missing_algorithm_early_exit (t : Table) (o : String → Bool)
    (h : "Algorithm" ∉ (stripColumns t).cols) :
    run (LoadResult.ok t) o =
      ⟨[Event.ensureOutputDir, Event.readCSV, Event.loadedMsg,
        Event.missingAlgorithmMsg], 0⟩ ∧
    Event.missingAlgorithmMsg ∈ (run (LoadResult.ok t) o).events ∧
    (∀ c, Event.coerceColumn c ∉ (run (LoadResult.ok t) o).events) ∧
    (∀ m, Event.raisedKeyErr m ∉ (run (LoadResult.ok t) o).events) ∧
    Event.printCleanedInfo ∉ (run (LoadResult.ok t) o).events ∧
    (∀ p, Event.plotSaved p ∉ (run (LoadResult.ok t) o).events) ∧
    (∀ p, Event.plotFailed p ∉ (run (LoadResult.ok t) o).events) := by
  have he := run_ok_noAlgo t o h
  rw [he]
  refine ⟨rfl, by simp, fun c => by simp, fun m => by simp, by simp,
    fun p => by simp, fun p => by simp⟩

/-- Witness for C5 on the concrete table without an Algorithm column. -/
theorem missing_algorithm_early_exit_witness :
    "Algorithm" ∉ (stripColumns noAlgoTable).cols ∧
    run (LoadResult.ok noAlgoTable) (fun _ => true) =
      ⟨[Event.ensureOutputDir, Event.readCSV, Event.loadedMsg,
        Event.missingAlgorithmMsg], 0⟩ :=
  ⟨by with_unfolding_all decide,
    (missing_algorithm_early_exit noAlgoTable (fun _ => true)
      (by with_unfolding_all decide)).1⟩

/-- Claim C9: every run, the early-exit ones included, begins by ensuring
the output directory exists and only then attempts to read the CSV, so
the directory exists as a side effect of every run. -/
theorem output_dir_before_read (inp : LoadResult) (o : String → Bool) :
    (run inp o).events.take 2 = [Event.ensureOutputDir, Event.readCSV] := by
  cases inp with
  | fileNotFound => rfl
  | loadError m => rfl
  | ok t =>
      by_cases h : "Algorithm" ∈ (stripColumns t).cols
      · cases hd : dropnaSubset (coerceNumericCols (stripColumns t)) critical_cols with
        | error m =>
            rw [run_ok_keyErr t o m h hd]
            rfl
        | ok t3 =>
            rw [run_ok_analyses t o t3 h hd]
            rfl
      · rw [run_ok_noAlgo t o h]
        rfl

/-- Witness for C9 at a concrete early-exit run. -/
theorem output_dir_before_read_witness :
    (run LoadResult.fileNotFound (fun _ => true)).events.take 2 =
      [Event.ensureOutputDir, Event.readCSV] :=
  output_dir_before_read LoadResult.fileNotFound (fun _ => true)

/-- Claim C10: a table with an Algorithm column but lacking one of the
four numeric critical columns passes the Algorithm check and the (skipping)
numeric coercion, and then the dropna step raises an unhandled KeyError
(non-zero interpreter exit), not the diagnostic-then-exit path of the
missing-Algorithm case. -/
theorem missing_column_keyerror (t : Table) (o : String → Bool) (c : String)
    (halgo : "Algorithm" ∈ (stripColumns t).cols)
    (hc : c ∈ ["NumVMs", "NumHosts", "Landscape", "StdDev_Host_CPU_Util(%)"])
    (hmiss : c ∉ (stripColumns t).cols) :
    ∃ missing, missing ≠ [] ∧
      Event.raisedKeyErr missing ∈ (run (LoadResult.ok t) o).events ∧
      (run (LoadResult.ok t) o).exitCode = 1 ∧
      Event.missingAlgorithmMsg ∉ (run (LoadResult.ok t) o).events ∧
      Event.completeMsg ∉ (run (LoadResult.ok t) o).events := by
  have hc2 : c ∈ critical_cols := by
    simp only [critical_cols, List.mem_cons, List.not_mem_nil, or_false] at hc ⊢
    tauto
  have hmiss2 : c ∉ (coerceNumericCols (stripColumns t)).cols := by
    rw [coerceNumericCols_cols]
    exact hmiss
  obtain ⟨missing, herr, hne⟩ :=
    dropnaSubset_error_of_missing (coerceNumericCols (stripColumns t))
      critical_cols c hc2 hmiss2
  have he := run_ok_keyErr t o missing halgo herr
  rw [he]
  refine ⟨missing, hne, by simp, rfl, ?_, ?_⟩
  · intro hmem
    rcases List.mem_append.mp hmem with hmem | hmem
    · rcases head_events_mem _ _ hmem with hx | hx | hx | hx | ⟨c', hx⟩ <;>
        exact Event.noConfusion hx
    · simp at hmem
  · intro hmem
    rcases List.mem_append.mp hmem with hmem | hmem
    · rcases head_events_mem _ _ hmem with hx | hx | hx | hx | ⟨c', hx⟩ <;>
        exact Event.noConfusion hx
    · simp at hmem

/-- Witness for C10 on the concrete table lacking NumVMs. -/
theorem missing_column_keyerror_witness :
    ("Algorithm" ∈ (stripColumns missingNumVMsTable).cols ∧
      "NumVMs" ∉ (stripColumns missingNumVMsTable).cols) ∧
    (run (LoadResult.ok missingNumVMsTable) (fun _ => true)).exitCode = 1 ∧
    Event.completeMsg ∉ (run (LoadResult.ok missingNumVMsTable) (fun _ => true)).events := by
  refine ⟨⟨by with_unfolding_all decide, by with_unfolding_all decide⟩, ?_⟩
  obtain ⟨m, hne, hmem, hexit, hnomsg, hnocomplete⟩ :=
    missing_column_keyerror missingNumVMsTable (fun _ => true) "NumVMs"
      (by with_unfolding_all decide) (by simp) (by with_unfolding_all decide)
  exact ⟨hexit, hnocomplete⟩

/-- Claim C7 counterexample: the loadable table with an Algorithm column
but no NumVMs column terminates early with the non-zero status of an
unhandled KeyError — an early non-zero exit in none of the three cases
the claim allows (the file was found, parsed, and has the Algorithm
column) — while an allowed case (missing file) exits with status 0,
because bare exit() terminates the interpreter with status 0. -/
theorem exit_code_claim_cex :
    "Algorithm" ∈ (stripColumns missingNumVMsTable).cols ∧
    (run (LoadResult.ok missingNumVMsTable) (fun _ => true)).exitCode = 1 ∧
    Event.completeMsg
        ∉ (run (LoadResult.ok missingNumVMsTable) (fun _ => true)).events ∧
    (run LoadResult.fileNotFound (fun _ => true)).exitCode = 0 := by
  with_unfolding_all decide

/-- Claim C7 (amended): the run exits with status 0 on normal completion
and in the three diagnostic early-exit cases (missing file, unparseable
input, missing Algorithm column), because bare exit() terminates the
interpreter with status 0; it exits with a non-zero status when an
unhandled exception aborts it: the KeyError raised by dropna on a missing
critical column, or a failed plot save. -/
theorem exit_code_behavior (t : Table) (o : String → Bool) (m : String) :
    (run LoadResult.fileNotFound o).exitCode = 0 ∧
    (run (LoadResult.loadError m) o).exitCode = 0 ∧
    ("Algorithm" ∉ (stripColumns t).cols →
      (run (LoadResult.ok t) o).exitCode = 0 ∧
        Event.completeMsg ∉ (run (LoadResult.ok t) o).events) ∧
    (Event.completeMsg ∈ (run (LoadResult.ok t) o).events →
      (run (LoadResult.ok t) o).exitCode = 0) ∧
    (∀ missing, "Algorithm" ∈ (stripColumns t).cols →
      dropnaSubset (coerceNumericCols (stripColumns t)) critical_cols
        = Except.error missing →
      (run (LoadResult.ok t) o).exitCode = 1) ∧
    (∀ p, Event.plotFailed p ∈ (run (LoadResult.ok t) o).events →
      (run (LoadResult.ok t) o).exitCode = 1) := by
  refine ⟨rfl, rfl, ?_, ?_, ?_, ?_⟩
  · intro h
    rw [run_ok_noAlgo t o h]
    exact ⟨rfl, by simp⟩
  · intro hmem
    by_cases halgo : "Algorithm" ∈ (stripColumns t).cols
    · cases hd : dropnaSubset (coerceNumericCols (stripColumns t)) critical_cols with
      | error m' =>
          rw [run_ok_keyErr t o m' halgo hd] at hmem ⊢
          exfalso
          rcases List.mem_append.mp hmem with hx | hx
          · rcases head_events_mem _ _ hx with hx | hx | hx | hx | ⟨c', hx⟩ <;>
              exact Event.noConfusion hx
          · simp at hx
      | ok t3 =>
          rw [run_ok_analyses t o t3 halgo hd] at hmem ⊢
          cases ha : (runAnalyses o (sla_pso_dfOf t3)).2 with
          | true => simp [ha]
          | false =>
              exfalso
              obtain ⟨hnc, _⟩ := runAnalyses_false_events o _ ha
              rcases List.mem_append.mp hmem with hx | hx
              · rcases List.mem_append.mp hx with hx | hx
                · rcases head_events_mem _ _ hx with hx | hx | hx | hx | ⟨c', hx⟩ <;>
                    exact Event.noConfusion hx
                · simp at hx
              · exact hnc hx
    · rw [run_ok_noAlgo t o halgo] at hmem
      simp at hmem
  · intro missing halgo herr
    rw [run_ok_keyErr t o missing halgo herr]
  · intro p hmem
    by_cases halgo : "Algorithm" ∈ (stripColumns t).cols
    · cases hd : dropnaSubset (coerceNumericCols (stripColumns t)) critical_cols with
      | error m' => rw [run_ok_keyErr t o m' halgo hd]
      | ok t3 =>
          rw [run_ok_analyses t o t3 halgo hd] at hmem ⊢
          cases ha : (runAnalyses o (sla_pso_dfOf t3)).2 with
          | false => simp [ha]
          | true =>
              exfalso
              have hnofail := (runAnalyses_true_mem o _ ha).2
              rcases List.mem_append.mp hmem with hx | hx
              · rcases List.mem_append.mp hx with hx | hx
                · rcases head_events_mem _ _ hx with hx | hx | hx | hx | ⟨c', hx⟩ <;>
                    exact Event.noConfusion hx
                · simp at hx
              · exact hnofail p hx
    · rw [run_ok_noAlgo t o halgo] at hmem
      simp at hmem

/-- Witness for the amended C7: a diagnostic early exit with status 0 and
a KeyError abort with status 1 at concrete inputs. -/
theorem exit_code_behavior_witness :
    (run LoadResult.fileNotFound (fun _ => true)).exitCode = 0 ∧
    (run (LoadResult.ok missingNumVMsTable) (fun _ => true)).exitCode = 1 := by
  refine ⟨(exit_code_behavior missingNumVMsTable (fun _ => true) "x").1, ?_⟩
  exact (exit_code_behavior missingNumVMsTable (fun _ => true) "x").2.2.2.2.1
    ["NumVMs"] (by with_unfolding_all decide) (by with_unfolding_all decide)

/-- Claim C8 counterexample: on the concrete run where the landscape bar
chart fails to save, the remaining two plot calls of the run are not
attempted at all (no saved and no failed event for them), the completion
message never prints, and the process exits with status 1 — refuting
"the remaining plot calls of the run are still attempted". -/
theorem plot_failure_claim_cex :
    Event.plotFailed landscapeBarPath ∈ (run (LoadResult.ok landscapeOnlyTable)
      (fun p => !(p == landscapeBarPath))).events ∧
    Event.plotSaved landscapeCurvePath ∉ (run (LoadResult.ok landscapeOnlyTable)
      (fun p => !(p == landscapeBarPath))).events ∧
    Event.plotFailed landscapeCurvePath ∉ (run (LoadResult.ok landscapeOnlyTable)
      (fun p => !(p == landscapeBarPath))).events ∧
    Event.plotSaved landscapeBoxPath ∉ (run (LoadResult.ok landscapeOnlyTable)
      (fun p => !(p == landscapeBarPath))).events ∧
    Event.plotFailed landscapeBoxPath ∉ (run (LoadResult.ok landscapeOnlyTable)
      (fun p => !(p == landscapeBarPath))).events ∧
    Event.completeMsg ∉ (run (LoadResult.ok landscapeOnlyTable)
      (fun p => !(p == landscapeBarPath))).events ∧
    (run (LoadResult.ok landscapeOnlyTable)
      (fun p => !(p == landscapeBarPath))).exitCode = 1 := by
  with_unfolding_all decide

/-- Claim C8 (amended): a failure while rendering or saving a chart is
fatal to the rest of the run: the exception propagates, so the trace ends
at the failed plot call (no later plot call, analysis, or completion
message occurs) and the process exits with a non-zero status. -/
theorem plot_failure_fatal (inp : LoadResult) (o : String → Bool) (p : String)
    (h : Event.plotFailed p ∈ (run inp o).events) :
    (run inp o).exitCode = 1 ∧
    Event.completeMsg ∉ (run inp o).events ∧
    ∃ pre, (run inp o).events = pre ++ [Event.plotFailed p] := by
  cases inp with
  | fileNotFound => simp [run_fileNotFound] at h
  | loadError m => simp [run_loadError] at h
  | ok t =>
      by_cases halgo : "Algorithm" ∈ (stripColumns t).cols
      · cases hd : dropnaSubset (coerceNumericCols (stripColumns t)) critical_cols with
        | error m' =>
            rw [run_ok_keyErr t o m' halgo hd] at h ⊢
            exfalso
            rcases List.mem_append.mp h with hx | hx
            · rcases head_events_mem _ _ hx with hx | hx | hx | hx | ⟨c', hx⟩ <;>
                exact Event.noConfusion hx
            · simp at hx
        | ok t3 =>
            rw [run_ok_analyses t o t3 halgo hd] at h ⊢
            cases ha : (runAnalyses o (sla_pso_dfOf t3)).2 with
            | true =>
                exfalso
                have hnofail := (runAnalyses_true_mem o _ ha).2
                rcases List.mem_append.mp h with hx | hx
                · rcases List.mem_append.mp hx with hx | hx
                  · rcases head_events_mem _ _ hx with hx | hx | hx | hx | ⟨c', hx⟩ <;>
                      exact Event.noConfusion hx
                  · simp at hx
                · exact hnofail p hx
            | false =>
                obtain ⟨hnc, pre, q, hsh, hu⟩ := runAnalyses_false_events o _ ha
                have hin : Event.plotFailed p ∈ (runAnalyses o (sla_pso_dfOf t3)).1 := by
                  rcases List.mem_append.mp h with hx | hx
                  · exfalso
                    rcases List.mem_append.mp hx with hx | hx
                    · rcases head_events_mem _ _ hx with hx | hx | hx | hx | ⟨c', hx⟩ <;>
                        exact Event.noConfusion hx
                    · simp at hx
                  · exact hx
                have hpq : p = q := hu p hin
                subst hpq
                refine ⟨by simp [ha], ?_, ?_⟩
                · intro hc
                  rcases List.mem_append.mp hc with hx | hx
                  · rcases List.mem_append.mp hx with hx | hx
                    · rcases head_events_mem _ _ hx with hx | hx | hx | hx | ⟨c', hx⟩ <;>
                        exact Event.noConfusion hx
                    · simp at hx
                  · exact hnc hx
                · refine ⟨[Event.ensureOutputDir, Event.readCSV, Event.loadedMsg,
                    Event.printUniqueAlgorithms] ++ coerceEvents (stripColumns t).cols
                    ++ [Event.printCleanedInfo] ++ pre, ?_⟩
                  rw [hsh]
                  simp [List.append_assoc]
      · rw [run_ok_noAlgo t o halgo] at h
        simp at h

/-- Witness for the amended C8 at the concrete failing-bar-chart run. -/
theorem plot_failure_fatal_witness :
    Event.plotFailed landscapeBarPath ∈ (run (LoadResult.ok landscapeOnlyTable)
      (fun p => !(p == landscapeBarPath))).events ∧
    (run (LoadResult.ok landscapeOnlyTable)
      (fun p => !(p == landscapeBarPath))).exitCode = 1 ∧
    Event.completeMsg ∉ (run (LoadResult.ok landscapeOnlyTable)
      (fun p => !(p == landscapeBarPath))).events := by
  have h : Event.plotFailed landscapeBarPath ∈ (run (LoadResult.ok landscapeOnlyTable)
      (fun p => !(p == landscapeBarPath))).events := by
    with_unfolding_all decide
  obtain ⟨h1, h2, _⟩ := plot_failure_fatal (LoadResult.ok landscapeOnlyTable)
    (fun p => !(p == landscapeBarPath)) landscapeBarPath h
  exact ⟨h, h1, h2⟩

theorem plotEvents_not_mem_coerceEvents (cols : List String) (p : String) :
    Event.plotSaved p ∉ coerceEvents cols ∧ Event.plotFailed p ∉ coerceEvents cols := by
  constructor <;> intro h <;> obtain ⟨c, hcx⟩ := mem_coerceEvents cols _ h <;>
    exact Event.noConfusion hcx

theorem analysisStep_allTrue (e : Bool) (n : Event) (ps : List String) :
    analysisStep (fun _ => true) e n ps =
      (if e then [n] else ps.map Event.plotSaved, true) := by
  cases e with
  | true => rfl
  | false => simp [analysisStep, runPlots_allTrue]

/-- Claim C6: on any input that reaches the analyses and whose
host-scaling slice (NumVMs=30, Landscape=4) is empty, and with every plot
save succeeding, the run prints the host-scaling no-data diagnostic,
produces no host-scaling plot, still executes the landscape-variation
analysis (its plots or its own no-data diagnostic), reaches the final
completion message, and exits with code 0. -/
theorem empty_host_slice_skips (t t3 : Table)
    (halgo : "Algorithm" ∈ (stripColumns t).cols)
    (hdrop : dropnaSubset (coerceNumericCols (stripColumns t)) critical_cols
      = Except.ok t3)
    (hempty : (host_scaling_dataOf (sla_pso_dfOf t3)).rows = []) :
    Event.noHostScalingDataMsg ∈ (run (LoadResult.ok t) (fun _ => true)).events ∧
    Event.plotSaved hostScalingPlotPath
        ∉ (run (LoadResult.ok t) (fun _ => true)).events ∧
    Event.plotFailed hostScalingPlotPath
        ∉ (run (LoadResult.ok t) (fun _ => true)).events ∧
    (Event.noLandscapeDataMsg ∈ (run (LoadResult.ok t) (fun _ => true)).events ∨
      Event.plotSaved landscapeBarPath
        ∈ (run (LoadResult.ok t) (fun _ => true)).events) ∧
    Event.completeMsg ∈ (run (LoadResult.ok t) (fun _ => true)).events ∧
    (run (LoadResult.ok t) (fun _ => true)).exitCode = 0 := by
  have hv : hostScalingPlotPath ≠ vmScalingPlotPath := by with_unfolding_all decide
  have hb : hostScalingPlotPath ≠ landscapeBarPath := by with_unfolding_all decide
  have hc : hostScalingPlotPath ≠ landscapeCurvePath := by with_unfolding_all decide
  have hx : hostScalingPlotPath ≠ landscapeBoxPath := by with_unfolding_all decide
  have hB : (host_scaling_dataOf (sla_pso_dfOf t3)).rows.isEmpty = true := by
    rw [hempty]
    rfl
  have hrun : runAnalyses (fun _ => true) (sla_pso_dfOf t3) =
      ((if (vm_scaling_dataOf (sla_pso_dfOf t3)).rows.isEmpty
          then [Event.noVmScalingDataMsg]
          else [Event.plotSaved vmScalingPlotPath]) ++ [Event.noHostScalingDataMsg]
        ++ (if (landscape_variation_dataOf (sla_pso_dfOf t3)).rows.isEmpty
          then [Event.noLandscapeDataMsg]
          else [Event.plotSaved landscapeBarPath, Event.plotSaved landscapeCurvePath,
            Event.plotSaved landscapeBoxPath]) ++ [Event.completeMsg], true) := by
    unfold runAnalyses
    rw [analysisStep_allTrue, analysisStep_allTrue, analysisStep_allTrue, hB]
    unfold seq3
    simp
  rw [run_ok_analyses t (fun _ => true) t3 halgo hdrop, hrun]
  cases hvm : (vm_scaling_dataOf (sla_pso_dfOf t3)).rows.isEmpty <;>
    cases hland : (landscape_variation_dataOf (sla_pso_dfOf t3)).rows.isEmpty <;>
      simp [hvm, hland, hv, hb, hc, hx] <;>
        exact plotEvents_not_mem_coerceEvents _ _

/-- Witness for C6 on the concrete one-row table whose host-scaling slice
is empty. -/
theorem empty_host_slice_skips_witness :
    ("Algorithm" ∈ (stripColumns hostEmptyTable).cols ∧
      dropnaSubset (coerceNumericCols (stripColumns hostEmptyTable)) critical_cols
        = Except.ok (droppedD hostEmptyTable) ∧
      (host_scaling_dataOf (sla_pso_dfOf (droppedD hostEmptyTable))).rows = []) ∧
    Event.completeMsg ∈ (run (LoadResult.ok hostEmptyTable) (fun _ => true)).events ∧
    (run (LoadResult.ok hostEmptyTable) (fun _ => true)).exitCode = 0 :=
  ⟨⟨by with_unfolding_all decide, by with_unfolding_all decide,
      by with_unfolding_all decide⟩,
    (empty_host_slice_skips hostEmptyTable (droppedD hostEmptyTable)
      (by with_unfolding_all decide) (by with_unfolding_all decide)
      (by with_unfolding_all decide)).2.2.2.2⟩

end SlaPso
